import Mathlib

/-!
Verification of the Directional Audio Guidance Engine: heading smoothing,
geodesy utilities, the chime-triggering audio engine, the FM-synthesis audio
engine, and the (spec-described) route state machine.  Definitions are shallow
embeddings of the TypeScript source in `src/`.
-/

/-- JavaScript's `%` operator on numbers: the remainder after truncated
division, `a - b * trunc (a / b)` (truncation toward zero). -/
def jsMod {α : Type} [LinearOrderedField α] [FloorRing α] (a b : α) : α :=
  if 0 ≤ a / b then a - b * (⌊a / b⌋ : ℤ) else a - b * (⌈a / b⌉ : ℤ)

/-- First normalization loop of the source (`while (diff < -180) diff += 360`),
shared verbatim by `animate` in `page.tsx`, `checkMatch` and the FM engine's
`update` in `AudioEngine.ts`. -/
def addUp (d : ℚ) : ℚ :=
  if d < -180 then addUp (d + 360) else d
termination_by (⌈-d⌉).toNat
decreasing_by
  have h1 : (180 : ℚ) < (⌈-d⌉ : ℤ) := lt_of_lt_of_le (by linarith) (Int.le_ceil _)
  have h2 : (180 : ℤ) < ⌈-d⌉ := by exact_mod_cast h1
  have h3 : ⌈-(d + 360)⌉ = ⌈-d⌉ - 360 := by
    rw [show -(d + 360) = -d - ((360 : ℤ) : ℚ) by push_cast; ring, Int.ceil_sub_int]
  omega

/-- Second normalization loop of the source (`while (diff > 180) diff -= 360`). -/
def subDown (d : ℚ) : ℚ :=
  if d > 180 then subDown (d - 360) else d
termination_by (⌈d⌉).toNat
decreasing_by
  have h1 : (180 : ℚ) < (⌈d⌉ : ℤ) := lt_of_lt_of_le (by linarith) (Int.le_ceil _)
  have h2 : (180 : ℤ) < ⌈d⌉ := by exact_mod_cast h1
  have h3 : ⌈d - 360⌉ = ⌈d⌉ - 360 := by
    rw [show d - 360 = d - ((360 : ℤ) : ℚ) by push_cast; ring, Int.ceil_sub_int]
  omega

/-- The source's two-loop shortest-path normalization of an angular
difference, in the order the loops appear in the source. -/
def normalizeDiff (d : ℚ) : ℚ :=
  subDown (addUp d)

lemma addUp_of_ge (d : ℚ) (h : -180 ≤ d) : addUp d = d := by
  unfold addUp
  rw [if_neg (not_lt.mpr h)]

lemma subDown_of_le (d : ℚ) (h : d ≤ 180) : subDown d = d := by
  unfold subDown
  rw [if_neg (not_lt.mpr h)]

lemma normalizeDiff_of_mem (d : ℚ) (h1 : -180 ≤ d) (h2 : d ≤ 180) :
    normalizeDiff d = d := by
  unfold normalizeDiff
  rw [addUp_of_ge d h1, subDown_of_le d h2]

lemma addUp_ge (d : ℚ) : -180 ≤ addUp d := by
  induction d using addUp.induct with
  | case1 d h ih =>
    unfold addUp
    rw [if_pos h]
    exact ih
  | case2 d h =>
    unfold addUp
    rw [if_neg h]
    linarith [not_lt.mp h]

lemma subDown_le (d : ℚ) : subDown d ≤ 180 := by
  induction d using subDown.induct with
  | case1 d h ih =>
    unfold subDown
    rw [if_pos h]
    exact ih
  | case2 d h =>
    unfold subDown
    rw [if_neg h]
    exact not_lt.mp h

lemma subDown_ge (d : ℚ) (hd : -180 ≤ d) : -180 ≤ subDown d := by
  induction d using subDown.induct with
  | case1 d h ih =>
    unfold subDown
    rw [if_pos h]
    exact ih (by linarith)
  | case2 d h =>
    unfold subDown
    rw [if_neg h]
    exact hd

lemma normalizeDiff_ge (d : ℚ) : -180 ≤ normalizeDiff d :=
  subDown_ge _ (addUp_ge d)

lemma normalizeDiff_le (d : ℚ) : normalizeDiff d ≤ 180 :=
  subDown_le _

lemma jsMod_nonneg {α : Type} [LinearOrderedField α] [FloorRing α]
    (a b : α) (hb : 0 < b) (ha : 0 ≤ a) : 0 ≤ jsMod a b := by
  unfold jsMod
  rw [if_pos (div_nonneg ha hb.le)]
  have key : a - b * (⌊a / b⌋ : ℤ) = b * Int.fract (a / b) := by
    have hfl : ((⌊a / b⌋ : ℤ) : α) = a / b - Int.fract (a / b) := by
      have := Int.floor_add_fract (a / b)
      linarith
    rw [hfl, mul_sub, mul_div_cancel₀ a hb.ne.symm]
    ring
  rw [key]
  exact mul_nonneg hb.le (Int.fract_nonneg _)

lemma jsMod_lt {α : Type} [LinearOrderedField α] [FloorRing α]
    (a b : α) (hb : 0 < b) (ha : 0 ≤ a) : jsMod a b < b := by
  unfold jsMod
  rw [if_pos (div_nonneg ha hb.le)]
  have key : a - b * (⌊a / b⌋ : ℤ) = b * Int.fract (a / b) := by
    have hfl : ((⌊a / b⌋ : ℤ) : α) = a / b - Int.fract (a / b) := by
      have := Int.floor_add_fract (a / b)
      linarith
    rw [hfl, mul_sub, mul_div_cancel₀ a hb.ne.symm]
    ring
  rw [key]
  calc b * Int.fract (a / b) < b * 1 :=
        (mul_lt_mul_left hb).mpr (Int.fract_lt_one _)
    _ = b := mul_one b

/-! ## Heading Filter (`animate` in `src/src/app/page.tsx`)

The body of the `setHeading` updater run each animation frame when a raw
sensor sample (`headingRef.current`) is present: `raw` is the latest raw
sample, `prev` the previous smoothed heading (`null` before the first tick). -/

/-- One tick of the heading filter from `page.tsx`: shortest-path diff via the
two normalization loops, snap when `|diff| > 100`, else lerp by `0.15` and
wrap with `(next + 360) % 360`. -/
def animateStep (raw : ℚ) (prev : Option ℚ) : Option ℚ :=
  match prev with
  | none => some raw
  | some prev =>
    let diff := normalizeDiff (raw - prev)
    if |diff| > 100 then some raw
    else
      let next := prev + diff * 0.15
      some (jsMod (next + 360) 360)

/-! ## Chime audio engine (`AudioEngine` in `src/src/lib/AudioEngine.ts`,
first iteration: drone plus waypoint/destination chimes) -/

/-- The two discrete chime sounds the engine can fire: the woodblock double
tap (`playWaypoint`) and the bell (`playSparkle`). -/
inductive Chime where
  | waypoint
  | sparkle
deriving DecidableEq

/-- Observable state of the chime engine: whether an audio context exists
(`context`, `none` until a successful `init`) and the wall-clock time of the
last chime (`lastTriggerTime`, `0` initially), in milliseconds. -/
structure AudioState where
  context : Option Unit
  lastTriggerTime : ℤ
deriving DecidableEq

/-- Engine state as built by the constructor: no context, `lastTriggerTime = 0`. -/
def mkEngine : AudioState :=
  { context := none, lastTriggerTime := 0 }

/-- `AudioEngine.init`: a no-op when a context already exists; otherwise the
`try` block either produces a context (`newContext = some _`) or fails
(`newContext = none`), and the `catch` only logs, so failure leaves the
state unchanged and no exception escapes (the function is total). -/
def init (s : AudioState) (newContext : Option Unit) : AudioState :=
  if s.context.isSome then s
  else
    match newContext with
    | some c => { s with context := some c }
    | none => s

/-- `checkMatch` from `AudioEngine.update`: the bearing-minus-heading diff,
normalized by the two loops, lies strictly within the 15-degree cone. -/
def checkMatch (heading bearing : ℚ) : Bool :=
  |normalizeDiff (bearing - heading)| < 15

/-- `AudioEngine.update` (chime iteration): no-op without a context or within
the 2000 ms cooldown; otherwise a supplied, matching waypoint bearing fires
the waypoint chime, else a matching destination bearing fires the bell; a
fire records `now` in `lastTriggerTime`. Returns the new state and the chime
fired this call, if any. -/
def update (s : AudioState) (now : ℤ) (heading targetBearing : ℚ)
    (waypointBearing : Option ℚ) : AudioState × Option Chime :=
  if s.context.isNone then (s, none)
  else if now - s.lastTriggerTime < 2000 then (s, none)
  else if (match waypointBearing with
           | some wb => checkMatch heading wb
           | none => false) then
    ({ s with lastTriggerTime := now }, some Chime.waypoint)
  else if checkMatch heading targetBearing then
    ({ s with lastTriggerTime := now }, some Chime.sparkle)
  else (s, none)

/-- One `update` call's inputs: wall-clock `now` (as read from `Date.now()`),
smoothed heading, destination bearing, and the optional waypoint bearing. -/
structure UpdateCall where
  now : ℤ
  heading : ℚ
  targetBearing : ℚ
  waypointBearing : Option ℚ

/-- Run a sequence of `update` calls, returning the final engine state and
the wall-clock times at which a chime (of either kind) fired, in call order. -/
def runUpdates (s : AudioState) : List UpdateCall → AudioState × List ℤ
  | [] => (s, [])
  | c :: cs =>
    let r := update s c.now c.heading c.targetBearing c.waypointBearing
    let rest := runUpdates r.1 cs
    (rest.1, if r.2.isSome then c.now :: rest.2 else rest.2)

lemma update_no_fire (s : AudioState) (now : ℤ) (heading targetBearing : ℚ)
    (waypointBearing : Option ℚ)
    (h : (update s now heading targetBearing waypointBearing).2 = none) :
    (update s now heading targetBearing waypointBearing).1 = s := by
  unfold update at h ⊢
  split_ifs at h ⊢ <;> simp_all

lemma update_fire (s : AudioState) (now : ℤ) (heading targetBearing : ℚ)
    (waypointBearing : Option ℚ)
    (h : (update s now heading targetBearing waypointBearing).2.isSome) :
    s.lastTriggerTime + 2000 ≤ now ∧
    (update s now heading targetBearing waypointBearing).1.lastTriggerTime = now := by
  unfold update at h ⊢
  split_ifs at h ⊢ with h1 h2 h3 h4 <;> simp_all <;> omega

lemma runUpdates_spec (calls : List UpdateCall) : ∀ s : AudioState,
    (∀ t ∈ (runUpdates s calls).2, s.lastTriggerTime + 2000 ≤ t) ∧
    List.Pairwise (fun a b : ℤ => a + 2000 ≤ b) (runUpdates s calls).2 := by
  induction calls with
  | nil =>
    intro s
    refine ⟨fun t ht => absurd ht ?_, ?_⟩ <;> simp [runUpdates]
  | cons c cs ih =>
    intro s
    by_cases hf : (update s c.now c.heading c.targetBearing c.waypointBearing).2.isSome
    · have hfire := update_fire s c.now c.heading c.targetBearing c.waypointBearing hf
      have hr : (runUpdates s (c :: cs)).2 =
          c.now :: (runUpdates (update s c.now c.heading c.targetBearing
            c.waypointBearing).1 cs).2 := by
        simp [runUpdates, hf]
      have ihu := ih (update s c.now c.heading c.targetBearing c.waypointBearing).1
      constructor
      · intro t ht
        rw [hr] at ht
        rcases List.mem_cons.mp ht with rfl | htl
        · exact hfire.1
        · have h2 := ihu.1 t htl
          rw [hfire.2] at h2
          omega
      · rw [hr]
        refine List.pairwise_cons.mpr ⟨fun t ht => ?_, ihu.2⟩
        have h2 := ihu.1 t ht
        rw [hfire.2] at h2
        omega
    · have hnone : (update s c.now c.heading c.targetBearing c.waypointBearing).2 = none :=
        Option.not_isSome_iff_eq_none.mp hf
      have hs1 := update_no_fire s c.now c.heading c.targetBearing c.waypointBearing hnone
      have hr : runUpdates s (c :: cs) = runUpdates s cs := by
        simp only [runUpdates]
        rw [hnone, hs1]
        simp
      rw [hr]
      exact ih s

/-! ## FM-synthesis audio engine (second `AudioEngine` iteration in
`src/src/lib/AudioEngine.ts`): continuous drone parameters. -/

namespace AudioEngineFM

/-- The continuous parameter targets `update` schedules on the audio nodes:
drone gain target, carrier frequency target, and stereo pan target. -/
structure UpdateTargets where
  targetVolume : ℚ
  frequencyTarget : ℚ
  pan : ℚ
deriving DecidableEq

/-- The FM engine's `update(heading, targetBearing, distance)` body after its
node-null guard: normalize `targetBearing - heading` with the two loops, set
the gain target (`0.05`, or `0.5 - (absDiff / 45) * 0.45` when `absDiff < 45`),
the frequency target (`880` when `absDiff < 10`, else `440`), and the pan
target `max(-1, min(1, diff / 90))`.  The `distance` argument is unused by
the source body. -/
def update (heading targetBearing : ℚ) (_distance : ℚ) : UpdateTargets :=
  let diff := normalizeDiff (targetBearing - heading)
  let absDiff := |diff|
  let targetVolume := if absDiff < 45 then 0.5 - absDiff / 45 * 0.45 else 0.05
  let frequencyTarget := if absDiff < 10 then (880 : ℚ) else 440
  let pan := max (-1) (min 1 (diff / 90))
  ⟨targetVolume, frequencyTarget, pan⟩

end AudioEngineFM

/-! ## Geodesy utilities (`src/src/lib/utils.ts`), over the real numbers. -/

/-- JavaScript's `Math.atan2 y x`, embedded as the complex argument of
`x + y i`, with range `(-pi, pi]` and `atan2 0 0 = 0` (as in JS). -/
noncomputable def atan2 (y x : ℝ) : ℝ :=
  Complex.arg (x + y * Complex.I)

lemma atan2_le_pi (y x : ℝ) : atan2 y x ≤ Real.pi :=
  Complex.arg_le_pi _

lemma neg_pi_lt_atan2 (y x : ℝ) : -Real.pi < atan2 y x :=
  Complex.neg_pi_lt_arg _

/-- `calculateBearing` from `utils.ts` (duplicated verbatim in `page.tsx`):
the spherical forward-azimuth formula followed by `(brng + 360) % 360`. -/
noncomputable def calculateBearing (startLat startLon destLat destLon : ℝ) : ℝ :=
  let startLatRad := startLat * (Real.pi / 180)
  let startLonRad := startLon * (Real.pi / 180)
  let destLatRad := destLat * (Real.pi / 180)
  let destLonRad := destLon * (Real.pi / 180)
  let y := Real.sin (destLonRad - startLonRad) * Real.cos destLatRad
  let x := Real.cos startLatRad * Real.sin destLatRad -
    Real.sin startLatRad * Real.cos destLatRad * Real.cos (destLonRad - startLonRad)
  let brng := atan2 y x * (180 / Real.pi)
  jsMod (brng + 360) 360

/-- `calculateDistance` from `utils.ts`: haversine distance with Earth radius
`6371e3` m. -/
noncomputable def calculateDistance (lat1 lon1 lat2 lon2 : ℝ) : ℝ :=
  let R : ℝ := 6371e3
  let phi1 := lat1 * Real.pi / 180
  let phi2 := lat2 * Real.pi / 180
  let dPhi := (lat2 - lat1) * Real.pi / 180
  let dLambda := (lon2 - lon1) * Real.pi / 180
  let a := Real.sin (dPhi / 2) * Real.sin (dPhi / 2) +
    Real.cos phi1 * Real.cos phi2 * Real.sin (dLambda / 2) * Real.sin (dLambda / 2)
  let c := 2 * atan2 (Real.sqrt a) (Real.sqrt (1 - a))
  R * c

/-- The haversine intermediate `a` of `calculateDistance`, named so that the
symmetry argument can act on it. -/
noncomputable def havTerm (lat1 lon1 lat2 lon2 : ℝ) : ℝ :=
  Real.sin ((lat2 - lat1) * Real.pi / 180 / 2) * Real.sin ((lat2 - lat1) * Real.pi / 180 / 2) +
  Real.cos (lat1 * Real.pi / 180) * Real.cos (lat2 * Real.pi / 180) *
    Real.sin ((lon2 - lon1) * Real.pi / 180 / 2) * Real.sin ((lon2 - lon1) * Real.pi / 180 / 2)

lemma calculateDistance_eq (lat1 lon1 lat2 lon2 : ℝ) :
    calculateDistance lat1 lon1 lat2 lon2 =
      6371e3 * (2 * atan2 (Real.sqrt (havTerm lat1 lon1 lat2 lon2))
        (Real.sqrt (1 - havTerm lat1 lon1 lat2 lon2))) :=
  rfl

lemma havTerm_symm (lat1 lon1 lat2 lon2 : ℝ) :
    havTerm lat1 lon1 lat2 lon2 = havTerm lat2 lon2 lat1 lon1 := by
  unfold havTerm
  rw [show (lat1 - lat2) * Real.pi / 180 / 2 = -((lat2 - lat1) * Real.pi / 180 / 2) by ring,
    show (lon1 - lon2) * Real.pi / 180 / 2 = -((lon2 - lon1) * Real.pi / 180 / 2) by ring,
    Real.sin_neg, Real.sin_neg]
  ring

lemma havTerm_self (lat lon : ℝ) : havTerm lat lon lat lon = 0 := by
  unfold havTerm
  rw [show (lat - lat) * Real.pi / 180 / 2 = 0 by ring,
    show (lon - lon) * Real.pi / 180 / 2 = 0 by ring, Real.sin_zero]
  ring

lemma atan2_zero_one : atan2 0 1 = 0 := by
  unfold atan2
  norm_num [Complex.arg_one]

/-! ## Route State Machine, modelled from the spec -/

/-- `GeoPoint` of the spec's data model: degrees latitude/longitude. -/
structure GeoPoint where
  latitude : ℚ
  longitude : ℚ
deriving DecidableEq

/-- Modelled from the spec: the Route State Machine of spec section 4.3 is
described by the spec but absent from `src/` (the repository contains no
waypoint-list or rerouting code).  States: `idle` (no waypoints),
`navigating` (waypoint list, current index, proximity tracker), `completed`. -/
inductive RouteState where
  | idle
  | navigating (waypoints : List GeoPoint) (currentWaypointIndex : ℕ)
      (minDistanceSoFar : Option ℚ)
  | completed
deriving DecidableEq

/-- Modelled from the spec: arrival threshold (reference: 10 m). -/
def arrivalThreshold : ℚ := 10

/-- Modelled from the spec: divergence threshold (reference: 25 m). -/
def divergenceThreshold : ℚ := 25

/-- Modelled from the spec: one position-fix step of section 4.3 while
navigating, driven by the geodesy-computed distance `dist` to the current
waypoint.  Arrival (`dist < 10`) advances the index and unsets the tracker,
moving to `completed` when the new index is beyond the list; otherwise the
tracker takes the minimum observed distance, and exceeding that minimum by
more than 25 m issues a reroute request (second component `true`) and resets
the tracker to the current distance.  `idle` and `completed` ignore fixes. -/
def rsmStep (s : RouteState) (dist : ℚ) : RouteState × Bool :=
  match s with
  | .navigating wps idx minD =>
    if dist < arrivalThreshold then
      if wps.length ≤ idx + 1 then (.completed, false)
      else (.navigating wps (idx + 1) none, false)
    else
      match minD with
      | some m =>
        if m + divergenceThreshold < dist then (.navigating wps idx (some dist), true)
        else (.navigating wps idx (some (min m dist)), false)
      | none => (.navigating wps idx (some dist), false)
  | s => (s, false)

/-- Run the route state machine over a sequence of position fixes, each given
by its distance to the then-current waypoint. -/
def runRSM (s : RouteState) (ds : List ℚ) : RouteState :=
  ds.foldl (fun s d => (rsmStep s d).1) s

lemma runRSM_completed (ds : List ℚ) : runRSM .completed ds = .completed := by
  induction ds with
  | nil => rfl
  | cons d ds ih => simpa [runRSM, rsmStep] using ih

lemma rsm_advance (ds : List ℚ) : ∀ (wps : List GeoPoint) (idx : ℕ) (minD : Option ℚ),
    idx < wps.length → ds.length = wps.length - idx →
    (∀ d ∈ ds, d < arrivalThreshold) →
    runRSM (.navigating wps idx minD) ds = .completed := by
  induction ds with
  | nil =>
    intro wps idx minD hlt hlen _
    exact absurd hlen (by simp; omega)
  | cons d ds ih =>
    intro wps idx minD hlt hlen hall
    have hd : d < arrivalThreshold := hall d (List.mem_cons_self d ds)
    have hrun : runRSM (.navigating wps idx minD) (d :: ds) =
        runRSM (rsmStep (.navigating wps idx minD) d).1 ds := rfl
    rw [hrun]
    by_cases hb : wps.length ≤ idx + 1
    · have hstep : (rsmStep (.navigating wps idx minD) d).1 = .completed := by
        simp [rsmStep, if_pos hd, if_pos hb]
      rw [hstep]
      exact runRSM_completed ds
    · have hstep : (rsmStep (.navigating wps idx minD) d).1 =
          .navigating wps (idx + 1) none := by
        simp [rsmStep, if_pos hd, if_neg hb]
      rw [hstep]
      have hlen' : ds.length = wps.length - (idx + 1) := by
        simp at hlen
        omega
      exact ih wps (idx + 1) none (by omega) hlen'
        (fun d' hd' => hall d' (List.mem_cons_of_mem _ hd'))

lemma runUpdates_inert (s : AudioState) (h : s.context = none) :
    ∀ calls : List UpdateCall, runUpdates s calls = (s, []) := by
  intro calls
  induction calls with
  | nil => rfl
  | cons c cs ih =>
    have hu : update s c.now c.heading c.targetBearing c.waypointBearing = (s, none) := by
      unfold update
      rw [if_pos (by simp [h])]
    simp [runUpdates, hu, ih]

/-! ## Claim theorems -/

/-- C1: per heading-filter tick with a raw heading set and a smoothed heading
present, the filter computes the normalized signed difference
`diff = raw - smoothed`; if `|diff| > 100` it snaps `smoothed = raw` with no
blending, otherwise it blends `smoothed = (smoothed + diff * 0.15 + 360) mod 360`. -/
theorem heading_filter_step_cases (raw prev : ℚ) :
    (|normalizeDiff (raw - prev)| > 100 → animateStep raw (some prev) = some raw) ∧
    (¬ |normalizeDiff (raw - prev)| > 100 →
      animateStep raw (some prev) =
        some (jsMod (prev + normalizeDiff (raw - prev) * 0.15 + 360) 360)) := by
  constructor
  · intro h
    simp only [animateStep]
    rw [if_pos h]
  · intro h
    simp only [animateStep]
    rw [if_neg h]

/-- Witness for C1: a 170-degree jump snaps to the raw value, and a
12-degree difference blends to `12 * 0.15 = 1.8` degrees. -/
theorem heading_filter_step_cases_witness :
    animateStep 170 (some 0) = some 170 ∧ animateStep 12 (some 0) = some (9 / 5) := by
  have hn170 : normalizeDiff ((170 : ℚ) - 0) = 170 := by
    rw [show (170 : ℚ) - 0 = 170 by norm_num]
    exact normalizeDiff_of_mem 170 (by norm_num) (by norm_num)
  have hn12 : normalizeDiff ((12 : ℚ) - 0) = 12 := by
    rw [show (12 : ℚ) - 0 = 12 by norm_num]
    exact normalizeDiff_of_mem 12 (by norm_num) (by norm_num)
  constructor
  · exact (heading_filter_step_cases 170 0).1 (by rw [hn170]; norm_num)
  · have h := (heading_filter_step_cases 12 0).2 (by rw [hn12]; norm_num)
    have hmod : jsMod ((0 : ℚ) + 12 * 0.15 + 360) 360 = 9 / 5 := by
      unfold jsMod
      rw [if_pos (by norm_num),
        show ((0 : ℚ) + 12 * 0.15 + 360) / 360 = 603 / 600 by norm_num,
        show ⌊(603 / 600 : ℚ)⌋ = 1 by
          rw [Int.floor_eq_iff]
          norm_num]
      norm_num
    rw [h, hn12, hmod]

/-- C2 counterexample: with smoothed heading 0, a raw sample of 170 (a jump of
exactly 170 degrees) makes the filter snap to 170 rather than blend, because
170 exceeds the source's snap threshold of 100; the blended value
`(0 + 170 * 0.15 + 360) mod 360` is not produced. -/
theorem jump170_blends_counterexample :
    animateStep 170 (some 0) = some 170 ∧
    animateStep 170 (some 0) ≠
      some (jsMod ((0 : ℚ) + normalizeDiff ((170 : ℚ) - 0) * 0.15 + 360) 360) := by
  have hn : normalizeDiff ((170 : ℚ) - 0) = 170 := by
    rw [show (170 : ℚ) - 0 = 170 by norm_num]
    exact normalizeDiff_of_mem 170 (by norm_num) (by norm_num)
  have h1 : animateStep 170 (some 0) = some 170 := by
    simp only [animateStep, hn]
    rw [if_pos (by norm_num)]
  have hmod : jsMod ((0 : ℚ) + 170 * 0.15 + 360) 360 = 51 / 2 := by
    unfold jsMod
    rw [if_pos (by norm_num),
      show ((0 : ℚ) + 170 * 0.15 + 360) / 360 = 771 / 720 by norm_num,
      show ⌊(771 / 720 : ℚ)⌋ = 1 by
        rw [Int.floor_eq_iff]
        norm_num]
    norm_num
  refine ⟨h1, ?_⟩
  rw [h1, hn, hmod]
  norm_num

/-- C2 amended: a single raw sample whose normalized difference from the
smoothed heading is exactly 170 degrees in magnitude is snapped directly to
the raw value (170 exceeds the 100-degree snap threshold); it is not blended. -/
theorem jump170_snaps (raw prev : ℚ)
    (h : |normalizeDiff (raw - prev)| = 170) :
    animateStep raw (some prev) = some raw := by
  simp only [animateStep]
  rw [if_pos (by rw [h]; norm_num)]

/-- Witness for the amended C2 at smoothed heading 0 and raw sample 170. -/
theorem jump170_snaps_witness : animateStep 170 (some 0) = some 170 :=
  jump170_snaps 170 0 (by
    rw [show (170 : ℚ) - 0 = 170 by norm_num,
      normalizeDiff_of_mem 170 (by norm_num) (by norm_num)]
    norm_num)

/-- C7 counterexample: normalizing the difference `0 - 180` (e.g. raw heading
0 against smoothed heading 180, or bearing 0 against heading 180) yields
exactly -180, which is outside the claimed half-open interval (-180, 180]. -/
theorem normalize_boundary_counterexample :
    normalizeDiff ((0 : ℚ) - 180) = -180 ∧ ¬ -180 < normalizeDiff ((0 : ℚ) - 180) := by
  have h : normalizeDiff ((0 : ℚ) - 180) = -180 := by
    rw [show (0 : ℚ) - 180 = -180 by norm_num]
    exact normalizeDiff_of_mem (-180) (by norm_num) (by norm_num)
  exact ⟨h, by rw [h]; exact lt_irrefl (-180)⟩

/-- C7 amended: every angular difference normalized by the engine's repeated
±360 loops lies in the closed interval [-180, 180] (the endpoint -180 is
attained, so the interval cannot be sharpened to (-180, 180]). -/
theorem normalize_range_closed (d : ℚ) :
    -180 ≤ normalizeDiff d ∧ normalizeDiff d ≤ 180 :=
  ⟨normalizeDiff_ge d, normalizeDiff_le d⟩

/-- C3: in an `update` call with an active context, the cooldown elapsed, a
waypoint bearing supplied and matching, and the destination bearing also
matching, exactly one chime fires and it is the waypoint chime (the bell is
not fired that call). -/
theorem waypoint_priority_single_chime (s : AudioState) (now : ℤ)
    (heading targetBearing wb : ℚ)
    (hctx : s.context ≠ none)
    (hcool : s.lastTriggerTime + 2000 ≤ now)
    (hwp : checkMatch heading wb = true)
    (hdest : checkMatch heading targetBearing = true) :
    update s now heading targetBearing (some wb) =
      ({ s with lastTriggerTime := now }, some Chime.waypoint) := by
  unfold update
  split_ifs with h1 h2
  · exact absurd (Option.isNone_iff_eq_none.mp h1) hctx
  · omega
  · rfl

/-- Witness for C3: active engine, cooldown long elapsed, waypoint bearing 3
and destination bearing 5 both within the cone of heading 0: the waypoint
chime fires. -/
theorem waypoint_priority_single_chime_witness :
    update { context := some (), lastTriggerTime := 0 } 5000 0 5 (some 3) =
      ({ context := some (), lastTriggerTime := 5000 }, some Chime.waypoint) := by
  have hwp : checkMatch 0 3 = true := by
    have h : normalizeDiff (3 : ℚ) = 3 :=
      normalizeDiff_of_mem 3 (by norm_num) (by norm_num)
    simp [checkMatch, h]
    norm_num
  have hdest : checkMatch 0 5 = true := by
    have h : normalizeDiff (5 : ℚ) = 5 :=
      normalizeDiff_of_mem 5 (by norm_num) (by norm_num)
    simp [checkMatch, h]
    norm_num
  exact waypoint_priority_single_chime _ 5000 0 5 3 (by simp) (by norm_num) hwp hdest

/-- C4: over any sequence of `update` calls from any engine state, the
wall-clock times at which chimes fire (of either kind) are pairwise at least
the 2000 ms cooldown apart; in particular two calls within one cooldown
window yield at most one chime. -/
theorem chime_cooldown_pairwise (s : AudioState) (calls : List UpdateCall) :
    List.Pairwise (fun a b : ℤ => a + 2000 ≤ b) (runUpdates s calls).2 :=
  (runUpdates_spec calls s).2

/-- C5 (route state machine modelled from the spec): from `navigating` at
index 0 over a non-empty waypoint list of length N, a sequence of N position
fixes whose distances to the then-current waypoint are all below the 10 m
arrival threshold drives the machine to `completed`. -/
theorem route_completion_after_arrivals (wps : List GeoPoint) (ds : List ℚ)
    (hne : wps ≠ []) (hlen : ds.length = wps.length)
    (hall : ∀ d ∈ ds, d < arrivalThreshold) :
    runRSM (.navigating wps 0 none) ds = .completed := by
  have hpos : 0 < wps.length := List.length_pos.mpr hne
  exact rsm_advance ds wps 0 none hpos (by omega) hall

/-- Witness for C5: a two-waypoint list and two sub-threshold fixes reach
`completed`. -/
theorem route_completion_after_arrivals_witness :
    runRSM (.navigating [⟨0, 0⟩, ⟨1, 1⟩] 0 none) [5, 5] = .completed :=
  route_completion_after_arrivals [⟨0, 0⟩, ⟨1, 1⟩] [5, 5] (by simp) (by simp)
    (by intro d hd; simp at hd; subst hd; norm_num [arrivalThreshold])

/-- C6: when context creation fails, `init` leaves the engine without a
context and every subsequent sequence of `update` calls is a no-op (state
unchanged, no chime ever fired); the engine is total, so no exception
crosses its boundary. -/
theorem inert_engine_noop (calls : List UpdateCall) :
    runUpdates (init mkEngine none) calls = (init mkEngine none, []) :=
  runUpdates_inert (init mkEngine none) rfl calls

/-- C8: for every pair of input coordinates (identical ones included), the
spherical forward-azimuth `calculateBearing` returns a value in [0, 360); the
function is total over the reals, so no error condition arises. -/
theorem bearing_in_range (startLat startLon destLat destLon : ℝ) :
    0 ≤ calculateBearing startLat startLon destLat destLon ∧
    calculateBearing startLat startLon destLat destLon < 360 := by
  have hbound : ∀ y x : ℝ, 0 ≤ atan2 y x * (180 / Real.pi) + 360 := by
    intro y x
    have h1 : -Real.pi < atan2 y x := neg_pi_lt_atan2 y x
    have hpos : (0 : ℝ) < 180 / Real.pi := by positivity
    have h2 : 0 < (atan2 y x + Real.pi) * (180 / Real.pi) :=
      mul_pos (by linarith) hpos
    have h3 : Real.pi * (180 / Real.pi) = 180 := by
      field_simp
    nlinarith [h2, h3]
  simp only [calculateBearing]
  exact ⟨jsMod_nonneg _ _ (by norm_num) (hbound _ _),
    jsMod_lt _ _ (by norm_num) (hbound _ _)⟩

/-- C9: the haversine `calculateDistance` is symmetric in its two coordinate
pairs, and the distance from any coordinate to itself is exactly 0. -/
theorem distance_symm_and_self :
    (∀ lat1 lon1 lat2 lon2 : ℝ,
      calculateDistance lat1 lon1 lat2 lon2 = calculateDistance lat2 lon2 lat1 lon1) ∧
    (∀ lat lon : ℝ, calculateDistance lat lon lat lon = 0) := by
  constructor
  · intro lat1 lon1 lat2 lon2
    rw [calculateDistance_eq, calculateDistance_eq, havTerm_symm]
  · intro lat lon
    rw [calculateDistance_eq, havTerm_self]
    rw [Real.sqrt_zero, show (1 : ℝ) - 0 = 1 by norm_num, Real.sqrt_one,
      atan2_zero_one]
    norm_num

/-- C10: for every heading and target bearing, the FM engine's `update`
computes a stereo pan target in [-1, 1] (clamped from `diff / 90`) and a
drone gain target in [0.05, 0.5]. -/
theorem fm_update_bounds (heading targetBearing distance : ℚ) :
    -1 ≤ (AudioEngineFM.update heading targetBearing distance).pan ∧
    (AudioEngineFM.update heading targetBearing distance).pan ≤ 1 ∧
    1 / 20 ≤ (AudioEngineFM.update heading targetBearing distance).targetVolume ∧
    (AudioEngineFM.update heading targetBearing distance).targetVolume ≤ 1 / 2 := by
  simp only [AudioEngineFM.update]
  refine ⟨le_max_left _ _, max_le (by norm_num) (min_le_left _ _), ?_, ?_⟩
  · by_cases habs : |normalizeDiff (targetBearing - heading)| < 45
    · rw [if_pos habs]
      have h0 : 0 ≤ |normalizeDiff (targetBearing - heading)| := abs_nonneg _
      linarith
    · rw [if_neg habs]
      norm_num
  · by_cases habs : |normalizeDiff (targetBearing - heading)| < 45
    · rw [if_pos habs]
      have h0 : 0 ≤ |normalizeDiff (targetBearing - heading)| := abs_nonneg _
      have : 0 ≤ |normalizeDiff (targetBearing - heading)| / 45 * 0.45 := by positivity
      linarith
    · rw [if_neg habs]
      norm_num
